import Mathlib

/-!
Verification of the naked-rust-api todo service core (`src/lib.rs`):
the mutex-guarded in-memory store, its five operations, and the
hand-written request parser/router `process_request`.

Rust's `HashMap<String, Todo>` is embedded as an association list with
unique keys (`StoreMap`); `insert` replaces an existing binding in
place, `get` finds the unique binding, `remove` deletes it, and `len`
is the list length.  Machine integers (`usize`) are embedded as `Nat`
with the 64-bit bound made explicit where the source can overflow.
Rust code that can panic is embedded as `Option`, `none` marking the
panic.
-/

/-- The stored record (`struct Todo` in `src/lib.rs`). -/
structure Todo where
  id : Nat
  title : String
  completed : Bool
deriving DecidableEq, Repr

/-- The shared map behind `Db = Arc<Mutex<HashMap<String, Todo>>>`,
as an association list keyed by the decimal string of the id. -/
abbrev StoreMap := List (String × Todo)

/-- `HashMap::get`: the value bound to `k`, if any. -/
def mapGet (k : String) : StoreMap → Option Todo
  | [] => none
  | (k', v) :: rest => if k' = k then some v else mapGet k rest

/-- `HashMap::insert`: replace the binding of `k` in place, or append a
fresh binding. -/
def mapInsert (k : String) (v : Todo) : StoreMap → StoreMap
  | [] => [(k, v)]
  | (k', v') :: rest => if k' = k then (k, v) :: rest else (k', v') :: mapInsert k v rest

/-- `HashMap::remove` (the `is_some` half): delete the binding of `k`. -/
def mapRemove (k : String) : StoreMap → StoreMap
  | [] => []
  | (k', v') :: rest => if k' = k then rest else (k', v') :: mapRemove k rest

/-- `HashMap::remove(..).is_some()`. -/
def mapHas (k : String) : StoreMap → Bool
  | [] => false
  | (k', _) :: rest => if k' = k then true else mapHas k rest

/-- The association list represents a `HashMap`: keys are unique. -/
def keysNodup (db : StoreMap) : Prop := (db.map Prod.fst).Nodup

instance (db : StoreMap) : Decidable (keysNodup db) :=
  inferInstanceAs (Decidable (db.map Prod.fst).Nodup)

/-- One hex digit, lowercase, as written by serde_json's escape table. -/
def hexDigit (n : Nat) : Char :=
  if n < 10 then Char.ofNat (48 + n) else Char.ofNat (87 + n)

/-- serde_json string escaping: `"` and `\` get a backslash, the five
short control escapes are used, remaining control characters become
`\u00XX`, and everything else is emitted verbatim. -/
def jsonEscapeChar (c : Char) : List Char :=
  if c = '"' then ['\\', '"']
  else if c = '\\' then ['\\', '\\']
  else if c = Char.ofNat 8 then ['\\', 'b']
  else if c = Char.ofNat 12 then ['\\', 'f']
  else if c = '\n' then ['\\', 'n']
  else if c = '\r' then ['\\', 'r']
  else if c = '\t' then ['\\', 't']
  else if c.toNat < 32 then
    ['\\', 'u', '0', '0', hexDigit (c.toNat / 16), hexDigit (c.toNat % 16)]
  else [c]

def jsonEscape (s : List Char) : List Char := s.flatMap jsonEscapeChar

/-- `serde_json::to_string(&todo)`: fields in declaration order. -/
def serializeTodo (t : Todo) : String :=
  String.mk ("\x7b\"id\":".data ++ (toString t.id).data
    ++ ",\"title\":\"".data ++ jsonEscape t.title.data
    ++ "\",\"completed\":".data ++ (if t.completed then "true".data else "false".data)
    ++ "\x7d".data)

/-- `serde_json::to_string(&todos)` for the list route: a JSON array in
the map's iteration order (the embedding fixes list order; the Rust
`HashMap` order is unspecified). -/
def serializeTodos (db : StoreMap) : String :=
  String.mk ('[' :: (List.intercalate [','] (db.map (fun p => (serializeTodo p.2).data)) ++ [']']))

/-- Unicode White_Space, the set used by Rust's `char::is_whitespace`
(and hence `str::split_whitespace` and `str::trim`). -/
def rustIsWhitespace (c : Char) : Bool :=
  c.toNat = 0x09 ∨ c.toNat = 0x0A ∨ c.toNat = 0x0B ∨ c.toNat = 0x0C ∨ c.toNat = 0x0D ∨
  c.toNat = 0x20 ∨ c.toNat = 0x85 ∨ c.toNat = 0xA0 ∨ c.toNat = 0x1680 ∨
  (0x2000 ≤ c.toNat ∧ c.toNat ≤ 0x200A) ∨ c.toNat = 0x2028 ∨ c.toNat = 0x2029 ∨
  c.toNat = 0x202F ∨ c.toNat = 0x205F ∨ c.toNat = 0x3000

/-- `str::trim`. -/
def rustTrim (s : List Char) : List Char :=
  ((s.dropWhile rustIsWhitespace).reverse.dropWhile rustIsWhitespace).reverse

/-- `validate_todo_title` (`src/lib.rs:85`): a title that is empty
after trimming is rejected. -/
def validate_todo_title (title : String) : Except String Unit :=
  if rustTrim title.data = [] then Except.error "Title cannot be empty."
  else Except.ok ()

/-- `validate_todo_completed` (`src/lib.rs:93`): the parsed optional
`completed` field must actually be present. -/
def validate_todo_completed (completed : Option Bool) : Except String Unit :=
  if completed.isSome then Except.ok ()
  else Except.error "The 'completed' field must be of type bool."

/-- `create_todo` (`src/lib.rs:281`): id is the current map size plus
one, the record starts uncompleted, and is stored under the decimal
string of its id. -/
def create_todo (title : String) (db : StoreMap) : String × String × StoreMap :=
  let id := db.length + 1
  let todo : Todo := { id := id, title := title, completed := false }
  ("201 Created", serializeTodo todo, mapInsert (toString id) todo db)

/-- `get_todo` (`src/lib.rs:269`). -/
def get_todo (id : Nat) (db : StoreMap) : String × String × StoreMap :=
  match mapGet (toString id) db with
  | some todo => ("200 OK", serializeTodo todo, db)
  | none => ("404 Not Found", "Todo not found.", db)

/-- `update_todo` (`src/lib.rs:294`): mutate in place the fields that
were provided; a missing id is Not-Found and mutates nothing. -/
def update_todo (id : Nat) (title : Option String) (completed : Option Bool)
    (db : StoreMap) : String × String × StoreMap :=
  match mapGet (toString id) db with
  | some todo =>
    let todo1 := match title with
      | some t => { todo with title := t }
      | none => todo
    let todo2 := match completed with
      | some c => { todo1 with completed := c }
      | none => todo1
    ("200 OK", serializeTodo todo2, mapInsert (toString id) todo2 db)
  | none => ("404 Not Found", "Todo not found.", db)

/-- `delete_todo` (`src/lib.rs:317`). -/
def delete_todo (id : Nat) (db : StoreMap) : String × String × StoreMap :=
  if mapHas (toString id) db then
    ("200 OK", "Todo has been deleted.", mapRemove (toString id) db)
  else
    ("404 Not Found", "Todo not found.", db)

/-- `process_request_get_todos` (`src/lib.rs:262`). -/
def process_request_get_todos (db : StoreMap) : String × String × StoreMap :=
  ("200 OK", serializeTodos db, db)

/-! ### Rust `str` primitives used by `process_request` -/

/-- `str::split_inclusive('\n')`: segments each ending in the newline
that produced them; a trailing segment without a newline is kept. -/
def splitInclusiveNl : List Char → List Char → List (List Char)
  | [], acc => if acc = [] then [] else [acc.reverse]
  | c :: rest, acc =>
    if c = '\n' then (c :: acc).reverse :: splitInclusiveNl rest []
    else splitInclusiveNl rest (c :: acc)

/-- The per-line map of `str::lines`: strip a trailing `'\n'`, and then
a `'\r'` only when that newline was present. -/
def lineChop (l : List Char) : List Char :=
  match l.reverse with
  | '\n' :: t =>
    match t with
    | '\r' :: t2 => t2.reverse
    | _ => t.reverse
  | _ => l

/-- `str::lines`. -/
def rustLines (s : List Char) : List (List Char) :=
  (splitInclusiveNl s []).map lineChop

/-- `str::split_whitespace` (tokens between Unicode-whitespace runs). -/
def splitWsAux : List Char → List Char → List (List Char)
  | [], acc => if acc = [] then [] else [acc.reverse]
  | c :: rest, acc =>
    if rustIsWhitespace c then
      if acc = [] then splitWsAux rest [] else acc.reverse :: splitWsAux rest []
    else splitWsAux rest (c :: acc)

def splitWs (s : List Char) : List (List Char) := splitWsAux s []

/-- `str::split_once(pat)`: split at the first occurrence of `pat`. -/
def splitOnceCh (pat : List Char) : List Char → Option (List Char × List Char)
  | [] => if pat = [] then some ([], []) else none
  | c :: rest =>
    if pat.isPrefixOf (c :: rest) then some ([], (c :: rest).drop pat.length)
    else
      match splitOnceCh pat rest with
      | some (a, b) => some (c :: a, b)
      | none => none

/-- `str::eq_ignore_ascii_case`. -/
def eqIgnoreAsciiCase (a b : List Char) : Bool :=
  a.map Char.toLower = b.map Char.toLower

/-- The numeric value of a nonempty all-digit run. -/
def digitsVal : List Char → Option Nat
  | [] => none
  | l => l.foldlM (fun acc c => if c.isDigit then some (acc * 10 + (c.toNat - 48)) else none) 0

/-- `str::parse::<usize>()`: optional leading `'+'`, one or more ASCII
digits, and the value must fit in 64 bits (overflow is an `Err`). -/
def parseUsize (s : List Char) : Option Nat :=
  let s' := match s with
    | '+' :: t => t
    | _ => s
  match digitsVal s' with
  | some v => if v < 2 ^ 64 then some v else none
  | none => none

/-- Rust byte-slice `&s[..n]` on a `str`, as the char prefix whose
UTF-8 size is exactly `n`; `none` is the out-of-bounds /
non-char-boundary panic. -/
def takeBytes : Nat → List Char → Option (List Char)
  | 0, _ => some []
  | _ + 1, [] => none
  | n + 1, c :: rest =>
    if c.utf8Size ≤ n + 1 then
      match takeBytes (n + 1 - c.utf8Size) rest with
      | some l => some (c :: l)
      | none => none
    else none

/-- `Vec::join("\n")`. -/
def intercalateNl (ls : List (List Char)) : List Char :=
  List.intercalate ['\n'] ls

/-- The header loop of `process_request` (`src/lib.rs:131`): read
`key: value` lines up to the first empty line, tracking the latest
`Content-Length` (unparseable values count as 0); a line without
`": "` is the invalid-header rejection (`none`).  Returns the declared
length and the remaining (body) lines. -/
def parseHeadersCL : List (List Char) → Nat → Option (Nat × List (List Char))
  | [], cl => some (cl, [])
  | line :: rest, cl =>
    if line = [] then some (cl, rest)
    else
      match splitOnceCh ": ".data line with
      | none => none
      | some (k, v) =>
        parseHeadersCL rest
          (if eqIgnoreAsciiCase k "Content-Length".data then (parseUsize v).getD 0 else cl)

/-! ### JSON (modelling serde_json)

`serde_json::from_str` is embedded as a JSON parser to an explicit
value type followed by typed extraction.  Numbers are kept as their
raw lexemes: no route of this program ever reads a numeric value out
of a body. -/

inductive Json where
  | null
  | jbool (b : Bool)
  | jnum (raw : List Char)
  | jstr (s : List Char)
  | jarr (xs : List Json)
  | jobj (fields : List (List Char × Json))

/-- JSON insignificant whitespace. -/
def jsonWs (c : Char) : Bool := c = ' ' ∨ c = '\t' ∨ c = '\n' ∨ c = '\r'

def skipWs (s : List Char) : List Char := s.dropWhile jsonWs

def hexVal (c : Char) : Option Nat :=
  if '0' ≤ c ∧ c ≤ '9' then some (c.toNat - 48)
  else if 'a' ≤ c ∧ c ≤ 'f' then some (c.toNat - 87)
  else if 'A' ≤ c ∧ c ≤ 'F' then some (c.toNat - 55)
  else none

/-- Four hex digits of a `\uXXXX` escape. -/
def hex4 : List Char → Option (Nat × List Char)
  | a :: b :: c :: d :: rest => do
    let va ← hexVal a
    let vb ← hexVal b
    let vc ← hexVal c
    let vd ← hexVal d
    some (va * 4096 + vb * 256 + vc * 16 + vd, rest)
  | _ => none

def escChar (c : Char) : Option Char :=
  if c = '"' then some '"'
  else if c = '\\' then some '\\'
  else if c = '/' then some '/'
  else if c = 'b' then some (Char.ofNat 8)
  else if c = 'f' then some (Char.ofNat 12)
  else if c = 'n' then some '\n'
  else if c = 'r' then some '\r'
  else if c = 't' then some '\t'
  else none

/-- JSON string body after the opening quote: content plus what follows
the closing quote.  Unescaped control characters, bad escapes and lone
surrogates are errors, as in serde_json. -/
def pString : Nat → List Char → Option (List Char × List Char)
  | 0, _ => none
  | _ + 1, [] => none
  | fuel + 1, c :: rest =>
    if c = '"' then some ([], rest)
    else if c = '\\' then
      match rest with
      | [] => none
      | e :: r2 =>
        if e = 'u' then do
          let (n, r3) ← hex4 r2
          if 0xD800 ≤ n ∧ n ≤ 0xDBFF then
            match r3 with
            | '\\' :: 'u' :: r4 => do
              let (n2, r5) ← hex4 r4
              if 0xDC00 ≤ n2 ∧ n2 ≤ 0xDFFF then do
                let (cs, r6) ← pString fuel r5
                some (Char.ofNat (0x10000 + (n - 0xD800) * 0x400 + (n2 - 0xDC00)) :: cs, r6)
              else none
            | _ => none
          else if 0xDC00 ≤ n ∧ n ≤ 0xDFFF then none
          else do
            let (cs, r4) ← pString fuel r3
            some (Char.ofNat n :: cs, r4)
        else do
          let ec ← escChar e
          let (cs, r3) ← pString fuel r2
          some (ec :: cs, r3)
    else if c.toNat < 32 then none
    else do
      let (cs, r2) ← pString fuel rest
      some (c :: cs, r2)

/-- Exponent part of a JSON number (optional). -/
def pExpPart (raw s : List Char) : Option (List Char × List Char) :=
  match s with
  | e :: t =>
    if e = 'e' ∨ e = 'E' then
      let (sg, t2) := match t with
        | '+' :: u => (['+'], u)
        | '-' :: u => (['-'], u)
        | _ => (([] : List Char), t)
      let ds := t2.takeWhile Char.isDigit
      if ds = [] then none
      else some (raw ++ e :: (sg ++ ds), t2.dropWhile Char.isDigit)
    else some (raw, s)
  | [] => some (raw, s)

/-- Fraction then exponent parts of a JSON number (both optional). -/
def pFracExp (raw s : List Char) : Option (List Char × List Char) :=
  match s with
  | '.' :: t =>
    let ds := t.takeWhile Char.isDigit
    if ds = [] then none
    else pExpPart (raw ++ '.' :: ds) (t.dropWhile Char.isDigit)
  | _ => pExpPart raw s

/-- JSON number lexeme: `-? (0 | [1-9][0-9]*) frac? exp?`. -/
def pNumber (s : List Char) : Option (List Char × List Char) :=
  let (sign, s1) := match s with
    | '-' :: t => ((['-'] : List Char), t)
    | _ => ([], s)
  match s1 with
  | [] => none
  | c :: t =>
    if c = '0' then pFracExp (sign ++ ['0']) t
    else if c.isDigit then
      pFracExp (sign ++ (c :: t).takeWhile Char.isDigit) ((c :: t).dropWhile Char.isDigit)
    else none

/-- What one step of the grammar is being parsed: a value, the element
list of an array, or the member list of an object. -/
inductive PMode where
  | val
  | elems
  | members

/-- Result of one grammar production. -/
inductive PRes where
  | val (j : Json)
  | elems (xs : List Json)
  | members (ms : List (List Char × Json))

/-- The recursive JSON grammar, fuelled (structural recursion on the
fuel so that concrete runs reduce): a value, or the tail of an array
(`value (, value)* ]`), or the tail of an object
(`"key" : value (, "key" : value)*` plus the closing brace). -/
def pStep : Nat → PMode → List Char → Option (PRes × List Char)
  | 0, _, _ => none
  | fuel + 1, PMode.val, s0 =>
    let s := skipWs s0
    match s with
    | [] => none
    | c :: rest =>
      if c = '"' then do
        let (str, r) ← pString (fuel + 1) rest
        some (PRes.val (Json.jstr str), r)
      else if c = '[' then
        match skipWs rest with
        | ']' :: r => some (PRes.val (Json.jarr []), r)
        | s' => do
          let (res, r) ← pStep fuel PMode.elems s'
          match res with
          | PRes.elems xs => some (PRes.val (Json.jarr xs), r)
          | _ => none
      else if c = '\x7b' then
        match skipWs rest with
        | '\x7d' :: r => some (PRes.val (Json.jobj []), r)
        | s' => do
          let (res, r) ← pStep fuel PMode.members s'
          match res with
          | PRes.members ms => some (PRes.val (Json.jobj ms), r)
          | _ => none
      else if List.isPrefixOf "null".data s then some (PRes.val Json.null, s.drop 4)
      else if List.isPrefixOf "true".data s then some (PRes.val (Json.jbool true), s.drop 4)
      else if List.isPrefixOf "false".data s then some (PRes.val (Json.jbool false), s.drop 5)
      else if c = '-' ∨ c.isDigit then do
        let (raw, r) ← pNumber s
        some (PRes.val (Json.jnum raw), r)
      else none
  | fuel + 1, PMode.elems, s => do
    let (res, s1) ← pStep fuel PMode.val s
    match res with
    | PRes.val v =>
      match skipWs s1 with
      | ',' :: s2 => do
        let (res2, s3) ← pStep fuel PMode.elems s2
        match res2 with
        | PRes.elems vs => some (PRes.elems (v :: vs), s3)
        | _ => none
      | ']' :: s2 => some (PRes.elems [v], s2)
      | _ => none
    | _ => none
  | fuel + 1, PMode.members, s =>
    match skipWs s with
    | '"' :: r => do
      let (k, s1) ← pString (fuel + 1) r
      match skipWs s1 with
      | ':' :: s2 => do
        let (res, s3) ← pStep fuel PMode.val s2
        match res with
        | PRes.val v =>
          match skipWs s3 with
          | ',' :: s4 => do
            let (res2, s5) ← pStep fuel PMode.members s4
            match res2 with
            | PRes.members ms => some (PRes.members ((k, v) :: ms), s5)
            | _ => none
          | '\x7d' :: s4 => some (PRes.members [(k, v)], s4)
          | _ => none
        | _ => none
      | _ => none
    | _ => none

/-- `serde_json::from_str::<Value>`: a single JSON document with only
trailing whitespace after it. -/
def parseJson (s : List Char) : Option Json :=
  match pStep (2 * s.length + 2) PMode.val s with
  | some (PRes.val v, rest) => if skipWs rest = [] then some v else none
  | _ => none

/-- The typed PUT body (`struct UpdateTodoRequest` in `src/lib.rs`). -/
structure UpdateTodoRequest where
  title : Option String
  completed : Option Bool

/-- First binding of a key in a parsed JSON object. -/
def jlookup (k : List Char) : List (List Char × Json) → Option Json
  | [] => none
  | (k', v) :: rest => if k' = k then some v else jlookup k rest

/-- serde's typed decoding of `UpdateTodoRequest` from an object:
`Option` fields accept absence or `null`; a duplicate of a known field
is an error; unknown fields are ignored. -/
def deserUpdateFields (fields : List (List Char × Json)) : Option UpdateTodoRequest :=
  if 2 ≤ fields.countP (fun p => p.1 = "title".data) ∨
      2 ≤ fields.countP (fun p => p.1 = "completed".data) then none
  else do
    let t ← match jlookup "title".data fields with
      | none => some none
      | some Json.null => some none
      | some (Json.jstr s) => some (some (String.mk s))
      | some _ => none
    let c ← match jlookup "completed".data fields with
      | none => some none
      | some Json.null => some none
      | some (Json.jbool b) => some (some b)
      | some _ => none
    some (UpdateTodoRequest.mk t c)

/-- `serde_json::from_str::<UpdateTodoRequest>` needs a JSON object. -/
def deserUpdate : Json → Option UpdateTodoRequest
  | Json.jobj fields => deserUpdateFields fields
  | _ => none

/-- `json.get("title").and_then(|v| v.as_str())` on a `Value`: a
`Value` object keeps the last binding of a duplicated key. -/
def valueTitle (j : Json) : Option (List Char) :=
  match j with
  | Json.jobj fields =>
    match jlookup "title".data fields.reverse with
    | some (Json.jstr s) => some s
    | _ => none
  | _ => none

/-- The method/path dispatch of `process_request` (`src/lib.rs:152`),
after the request line, headers and body have been accepted. -/
def routeRequest (method path body : List Char) (db : StoreMap) : String × String × StoreMap :=
  if method = "GET".data then
    if path = "/todos".data then process_request_get_todos db
    else if "/todos/".data.isPrefixOf path then
      match parseUsize (path.drop 7) with
      | some id => get_todo id db
      | none => ("400 Bad Request", "Invalid ID.", db)
    else ("404 Not Found", "Endpoint not found.", db)
  else if method = "POST".data then
    if path = "/todos".data then
      match parseJson body with
      | some json =>
        match valueTitle json with
        | some title =>
          match validate_todo_title (String.mk title) with
          | Except.error e => ("400 Bad Request", e, db)
          | Except.ok _ => create_todo (String.mk title) db
        | none => ("400 Bad Request", "Title is required.", db)
      | none => ("400 Bad Request", "Invalid JSON format.", db)
    else ("404 Not Found", "Endpoint not found.", db)
  else if method = "PUT".data then
    if "/todos/".data.isPrefixOf path then
      match parseUsize (path.drop 7) with
      | some id =>
        match (parseJson body).bind deserUpdate with
        | some ureq =>
          match (match ureq.title with
            | some t => validate_todo_title t
            | none => Except.ok ()) with
          | Except.error e => ("400 Bad Request", e, db)
          | Except.ok _ =>
            match validate_todo_completed ureq.completed with
            | Except.error e => ("400 Bad Request", e, db)
            | Except.ok _ => update_todo id ureq.title ureq.completed db
        | none => ("400 Bad Request", "JSON deserialization error occurred.", db)
      | none => ("400 Bad Request", "Invalid ID.", db)
    else ("404 Not Found", "Endpoint not found.", db)
  else if method = "DELETE".data then
    if "/todos/".data.isPrefixOf path then
      match parseUsize (path.drop 7) with
      | some id => delete_todo id db
      | none => ("400 Bad Request", "Invalid ID.", db)
    else ("404 Not Found", "Endpoint not found.", db)
  else ("405 Method Not Allowed", "Method is not allowed.", db)

/-- `process_request` (`src/lib.rs:112`).  The result is `none` exactly
when the Rust function panics: the byte slice
`&body[..content_length]` on `src/lib.rs:150` is out of bounds or off
a character boundary. -/
def process_request (request : String) (db : StoreMap) :
    Option (String × String × StoreMap) :=
  match rustLines request.data with
  | [] => some ("400 Bad Request", "Invalid request.", db)
  | firstLine :: rest =>
    match splitWs firstLine with
    | [method, path, version] =>
      if version ≠ "HTTP/1.1".data ∧ version ≠ "HTTP/1.0".data ∧ version ≠ "HTTP/2.0".data then
        some ("505 HTTP Version Not Supported", "HTTP version is not supported.", db)
      else
        match parseHeadersCL rest 0 with
        | none => some ("400 Bad Request", "Invalid header format.", db)
        | some (cl, bodyLines) =>
          match takeBytes cl (intercalateNl bodyLines) with
          | none => none
          | some body => some (routeRequest method path body db)
    | _ => some ("400 Bad Request", "Invalid request line.", db)

/-- The first `completed` binding of a parsed JSON object is absent or
not a boolean (the hypothesis class of C2). -/
def completedNotBool (fields : List (List Char × Json)) : Bool :=
  match jlookup "completed".data fields with
  | some (Json.jbool _) => false
  | _ => true

/-- Every key of the map is the decimal rendering of its record's id. -/
def storeWf (db : StoreMap) : Prop := ∀ p ∈ db, p.1 = toString p.2.id

/-- Stores reachable from the empty store by the three mutating
operations. -/
inductive Reachable : StoreMap → Prop where
  | empty : Reachable []
  | create (s : StoreMap) (title : String) :
      Reachable s → Reachable (create_todo title s).2.2
  | update (s : StoreMap) (id : Nat) (t : Option String) (c : Option Bool) :
      Reachable s → Reachable (update_todo id t c s).2.2
  | delete (s : StoreMap) (id : Nat) :
      Reachable s → Reachable (delete_todo id s).2.2

/-! ### Two workers sharing the store under the mutex (C9)

Each of the five handlers does `db.lock().unwrap()`, reads the map,
writes the map and its result, and releases the lock when the guard
drops.  A worker's critical section is modelled in three steps — read
under the lock, write under the lock, release — and `Mutex::lock` as a
step that is enabled only while no one holds the lock.  Mutual
exclusion and linearizability are then derived, not assumed. -/

/-- One store operation, as dispatched by the router. -/
inductive StoreOp where
  | list
  | get (id : Nat)
  | create (title : String)
  | update (id : Nat) (title : Option String) (completed : Option Bool)
  | delete (id : Nat)

/-- The five handlers of `src/lib.rs` (status, body, new store). -/
def applyOp : StoreOp → StoreMap → String × String × StoreMap
  | StoreOp.list, db => process_request_get_todos db
  | StoreOp.get id, db => get_todo id db
  | StoreOp.create title, db => create_todo title db
  | StoreOp.update id t c, db => update_todo id t c db
  | StoreOp.delete id, db => delete_todo id db

/-- The (status, body) part of a handler's result. -/
def outOf (r : String × String × StoreMap) : String × String := (r.1, r.2.1)

/-- Local state of one worker running one handler call.
`pc`: 0 not started, 1 lock acquired, 2 store read, 3 store and result
written, 4 lock released (done). -/
structure ThreadSt where
  pc : Nat
  snap : StoreMap
  res : Option (String × String)

/-- Global state: who holds the mutex, the shared map, two workers. -/
structure WState where
  lock : Option (Fin 2)
  store : StoreMap
  th0 : ThreadSt
  th1 : ThreadSt

/-- Both workers idle against the empty store. -/
def winit : WState := ⟨none, [], ⟨0, [], none⟩, ⟨0, [], none⟩⟩

/-- Interleaving semantics of worker 0 running `op0` and worker 1
running `op1`, one shared mutex-guarded store. -/
inductive WStep (op0 op1 : StoreOp) : WState → WState → Prop where
  | acquire0 (s : WState) (h : s.lock = none) (hpc : s.th0.pc = 0) :
      WStep op0 op1 s { s with lock := some 0, th0 := { s.th0 with pc := 1 } }
  | read0 (s : WState) (h : s.lock = some 0) (hpc : s.th0.pc = 1) :
      WStep op0 op1 s { s with th0 := { s.th0 with pc := 2, snap := s.store } }
  | write0 (s : WState) (h : s.lock = some 0) (hpc : s.th0.pc = 2) :
      WStep op0 op1 s { s with
        store := (applyOp op0 s.th0.snap).2.2,
        th0 := { s.th0 with pc := 3, res := some (outOf (applyOp op0 s.th0.snap)) } }
  | release0 (s : WState) (h : s.lock = some 0) (hpc : s.th0.pc = 3) :
      WStep op0 op1 s { s with lock := none, th0 := { s.th0 with pc := 4 } }
  | acquire1 (s : WState) (h : s.lock = none) (hpc : s.th1.pc = 0) :
      WStep op0 op1 s { s with lock := some 1, th1 := { s.th1 with pc := 1 } }
  | read1 (s : WState) (h : s.lock = some 1) (hpc : s.th1.pc = 1) :
      WStep op0 op1 s { s with th1 := { s.th1 with pc := 2, snap := s.store } }
  | write1 (s : WState) (h : s.lock = some 1) (hpc : s.th1.pc = 2) :
      WStep op0 op1 s { s with
        store := (applyOp op1 s.th1.snap).2.2,
        th1 := { s.th1 with pc := 3, res := some (outOf (applyOp op1 s.th1.snap)) } }
  | release1 (s : WState) (h : s.lock = some 1) (hpc : s.th1.pc = 3) :
      WStep op0 op1 s { s with lock := none, th1 := { s.th1 with pc := 4 } }

/-- States reachable from `winit`. -/
inductive WReach (op0 op1 : StoreOp) : WState → Prop where
  | init : WReach op0 op1 winit
  | step (s s' : WState) : WReach op0 op1 s → WStep op0 op1 s s' → WReach op0 op1 s'

/-- Outcome of running `op0` then `op1` sequentially from the empty
store: worker results and final store. -/
def run01 (op0 op1 : StoreOp) :
    Option (String × String) × Option (String × String) × StoreMap :=
  (some (outOf (applyOp op0 [])),
   some (outOf (applyOp op1 (applyOp op0 []).2.2)),
   (applyOp op1 (applyOp op0 []).2.2).2.2)

/-- Outcome of running `op1` then `op0` sequentially from the empty
store. -/
def run10 (op0 op1 : StoreOp) :
    Option (String × String) × Option (String × String) × StoreMap :=
  (some (outOf (applyOp op0 (applyOp op1 []).2.2)),
   some (outOf (applyOp op1 [])),
   (applyOp op0 (applyOp op1 []).2.2).2.2)

/-- Inductive invariant of the two-worker system: the idle/done phase
combinations with their stores and results, or one worker inside its
critical section against the store its rival left (`base`). -/
def WInv (op0 op1 : StoreOp) (s : WState) : Prop :=
  (s.lock = none ∧ s.th0.pc = 0 ∧ s.th1.pc = 0 ∧ s.store = [] ∧
    s.th0.res = none ∧ s.th1.res = none)
  ∨ (s.lock = none ∧ s.th0.pc = 4 ∧ s.th1.pc = 0 ∧ s.store = (applyOp op0 []).2.2 ∧
    s.th0.res = some (outOf (applyOp op0 [])) ∧ s.th1.res = none)
  ∨ (s.lock = none ∧ s.th0.pc = 0 ∧ s.th1.pc = 4 ∧ s.store = (applyOp op1 []).2.2 ∧
    s.th0.res = none ∧ s.th1.res = some (outOf (applyOp op1 [])))
  ∨ (s.lock = none ∧ s.th0.pc = 4 ∧ s.th1.pc = 4 ∧
    ((s.th0.res, s.th1.res, s.store) = run01 op0 op1 ∨
     (s.th0.res, s.th1.res, s.store) = run10 op0 op1))
  ∨ (s.lock = some 0 ∧ ∃ base : StoreMap,
    ((s.th1.pc = 0 ∧ s.th1.res = none ∧ base = []) ∨
     (s.th1.pc = 4 ∧ s.th1.res = some (outOf (applyOp op1 [])) ∧
       base = (applyOp op1 []).2.2)) ∧
    ((s.th0.pc = 1 ∧ s.store = base ∧ s.th0.res = none) ∨
     (s.th0.pc = 2 ∧ s.store = base ∧ s.th0.snap = base ∧ s.th0.res = none) ∨
     (s.th0.pc = 3 ∧ s.store = (applyOp op0 base).2.2 ∧
       s.th0.res = some (outOf (applyOp op0 base)))))
  ∨ (s.lock = some 1 ∧ ∃ base : StoreMap,
    ((s.th0.pc = 0 ∧ s.th0.res = none ∧ base = []) ∨
     (s.th0.pc = 4 ∧ s.th0.res = some (outOf (applyOp op0 [])) ∧
       base = (applyOp op0 []).2.2)) ∧
    ((s.th1.pc = 1 ∧ s.store = base ∧ s.th1.res = none) ∨
     (s.th1.pc = 2 ∧ s.store = base ∧ s.th1.snap = base ∧ s.th1.res = none) ∨
     (s.th1.pc = 3 ∧ s.store = (applyOp op1 base).2.2 ∧
       s.th1.res = some (outOf (applyOp op1 base)))))

/-- The final state of the trace that runs worker 0's create to
completion and then worker 1's. -/
def wfinal : WState :=
  ⟨none,
   (applyOp (StoreOp.create "b") (applyOp (StoreOp.create "a") []).2.2).2.2,
   ⟨4, [], some (outOf (applyOp (StoreOp.create "a") []))⟩,
   ⟨4, (applyOp (StoreOp.create "a") []).2.2,
     some (outOf (applyOp (StoreOp.create "b") (applyOp (StoreOp.create "a") []).2.2))⟩⟩

/-! ### Store lemmas -/

theorem mapGet_mapInsert_self (k : String) (v : Todo) (db : StoreMap) :
    mapGet k (mapInsert k v db) = some v := by
  induction db with
  | nil => simp [mapInsert, mapGet]
  | cons p rest ih =>
    obtain ⟨k', v'⟩ := p
    by_cases h : k' = k
    · simp [mapInsert, mapGet, h]
    · simp [mapInsert, mapGet, h, ih]

theorem mapGet_eq_none_of_not_mem_keys (k : String) (db : StoreMap)
    (h : k ∉ db.map Prod.fst) : mapGet k db = none := by
  induction db with
  | nil => simp [mapGet]
  | cons p rest ih =>
    obtain ⟨k', v'⟩ := p
    simp only [List.map_cons, List.mem_cons] at h
    push_neg at h
    have hk : k' ≠ k := fun hk => h.1 hk.symm
    simp [mapGet, hk, ih h.2]

theorem mapGet_mapRemove_self (k : String) (db : StoreMap) (h : keysNodup db) :
    mapGet k (mapRemove k db) = none := by
  induction db with
  | nil => simp [mapRemove, mapGet]
  | cons p rest ih =>
    obtain ⟨k', v'⟩ := p
    simp only [keysNodup, List.map_cons, List.nodup_cons] at h
    by_cases hk : k' = k
    · subst hk
      have hrem : mapRemove k' ((k', v') :: rest) = rest := by simp [mapRemove]
      rw [hrem]
      exact mapGet_eq_none_of_not_mem_keys k' rest (by simpa using h.1)
    · simp [mapRemove, mapGet, hk, ih h.2]

theorem mapGet_eq_none_of_mapHas_false (k : String) (db : StoreMap)
    (h : mapHas k db = false) : mapGet k db = none := by
  induction db with
  | nil => simp [mapGet]
  | cons p rest ih =>
    obtain ⟨k', v'⟩ := p
    by_cases hk : k' = k
    · simp [mapHas, hk] at h
    · simp only [mapHas, hk, if_false] at h
      simp [mapGet, hk, ih h]

theorem mapGet_mem (k : String) (v : Todo) (db : StoreMap)
    (h : mapGet k db = some v) : (k, v) ∈ db := by
  induction db with
  | nil => simp [mapGet] at h
  | cons p rest ih =>
    obtain ⟨k', v'⟩ := p
    by_cases hk : k' = k
    · subst hk
      simp [mapGet] at h
      subst h
      exact List.mem_cons_self _ _
    · simp only [mapGet, if_neg hk] at h
      exact List.mem_cons_of_mem _ (ih h)

/-! ### Claims about the store operations -/

/-- C3: a create against any store assigns id = current record count
plus one, inserts the record with `completed = false` under that id's
key, and returns status 201 with the serialized record carrying the
submitted title verbatim. -/
theorem create_assigns_count_plus_one (title : String) (db : StoreMap)
    (hvalid : validate_todo_title title = Except.ok ())
    (hdb : keysNodup db) :
    create_todo title db =
      ("201 Created", serializeTodo ⟨db.length + 1, title, false⟩,
        mapInsert (toString (db.length + 1)) ⟨db.length + 1, title, false⟩ db)
    ∧ mapGet (toString (db.length + 1)) (create_todo title db).2.2 =
        some ⟨db.length + 1, title, false⟩ := by
  refine ⟨rfl, ?_⟩
  exact mapGet_mapInsert_self _ _ _

theorem create_assigns_count_plus_one_witness :
    create_todo "Buy milk" [] =
      ("201 Created", serializeTodo ⟨1, "Buy milk", false⟩,
        mapInsert (toString 1) ⟨1, "Buy milk", false⟩ [])
    ∧ mapGet (toString 1) (create_todo "Buy milk" []).2.2 =
        some ⟨1, "Buy milk", false⟩ :=
  create_assigns_count_plus_one "Buy milk" [] rfl (by decide)

/-- C4: updating an id that is not in the store reports Not-Found and
returns the store unchanged. -/
theorem update_missing_id_not_found (id : Nat) (title : Option String)
    (completed : Option Bool) (db : StoreMap)
    (h : mapGet (toString id) db = none) :
    update_todo id title completed db = ("404 Not Found", "Todo not found.", db) := by
  unfold update_todo
  rw [h]

theorem update_missing_id_not_found_witness :
    update_todo 999 (some "Nonexistent Todo") (some true) [] =
      ("404 Not Found", "Todo not found.", []) :=
  update_missing_id_not_found 999 (some "Nonexistent Todo") (some true) [] (by decide)

/-- C5: a partial update applies exactly the provided fields: updating
only `completed` keeps the title, updating only `title` keeps the
completion flag, and the id is never changed. -/
theorem update_preserves_unspecified_fields (id : Nat) (db : StoreMap) (todo : Todo)
    (h : mapGet (toString id) db = some todo) :
    (∀ c, mapGet (toString id) (update_todo id none (some c) db).2.2 =
        some ⟨todo.id, todo.title, c⟩)
    ∧ (∀ t, mapGet (toString id) (update_todo id (some t) none db).2.2 =
        some ⟨todo.id, t, todo.completed⟩)
    ∧ (∀ (t : Option String) (c : Option Bool),
        mapGet (toString id) (update_todo id t c db).2.2 =
        some ⟨todo.id, t.getD todo.title, c.getD todo.completed⟩) := by
  obtain ⟨i, ti, co⟩ := todo
  have main : ∀ (t : Option String) (c : Option Bool),
      mapGet (toString id) (update_todo id t c db).2.2 =
      some ⟨i, t.getD ti, c.getD co⟩ := by
    intro t c
    unfold update_todo
    rw [h]
    cases t <;> cases c <;> simp [mapGet_mapInsert_self]
  exact ⟨fun c => main none (some c), fun t => main (some t) none, main⟩

theorem update_preserves_unspecified_fields_witness :
    (∀ c, mapGet (toString 1) (update_todo 1 none (some c) [("1", ⟨1, "a", false⟩)]).2.2 =
        some ⟨1, "a", c⟩)
    ∧ (∀ t, mapGet (toString 1) (update_todo 1 (some t) none [("1", ⟨1, "a", false⟩)]).2.2 =
        some ⟨1, t, false⟩)
    ∧ (∀ (t : Option String) (c : Option Bool),
        mapGet (toString 1) (update_todo 1 t c [("1", ⟨1, "a", false⟩)]).2.2 =
        some ⟨1, t.getD "a", c.getD false⟩) :=
  update_preserves_unspecified_fields 1 [("1", ⟨1, "a", false⟩)] ⟨1, "a", false⟩ (by decide)

/-- C6: after a delete of `id`, a get of the same `id` reports
Not-Found (and leaves the post-delete store as it is). -/
theorem delete_then_get_not_found (id : Nat) (db : StoreMap) (h : keysNodup db) :
    get_todo id (delete_todo id db).2.2 =
      ("404 Not Found", "Todo not found.", (delete_todo id db).2.2) := by
  unfold delete_todo
  by_cases hhas : mapHas (toString id) db
  · simp only [hhas, if_true]
    unfold get_todo
    rw [mapGet_mapRemove_self _ _ h]
  · simp only [hhas, if_false]
    unfold get_todo
    rw [mapGet_eq_none_of_mapHas_false _ _ (by simpa using hhas)]

theorem delete_then_get_not_found_witness :
    get_todo 1 (delete_todo 1 [("1", ⟨1, "a", false⟩)]).2.2 =
      ("404 Not Found", "Todo not found.", (delete_todo 1 [("1", ⟨1, "a", false⟩)]).2.2) :=
  delete_then_get_not_found 1 [("1", ⟨1, "a", false⟩)] (by decide)

/-- C8: ids are not globally unique once deletions occur: create three
records, delete record 1; the store now has 2 records, so the next
create assigns id 3 even though a record with id 3 (title "c") is
still present — the insert then overwrites it. -/
theorem id_reuse_after_delete :
    (let s3 := (create_todo "c" ((create_todo "b" ((create_todo "a" ([] : StoreMap)).2.2)).2.2)).2.2
     let s4 := (delete_todo 1 s3).2.2
     s4.length + 1 = 3 ∧ mapGet "3" s4 = some ⟨3, "c", false⟩ ∧
       create_todo "d" s4 =
         ("201 Created", serializeTodo ⟨3, "d", false⟩, mapInsert "3" ⟨3, "d", false⟩ s4)) :=
  ⟨rfl, rfl, rfl⟩

theorem storeWf_mapInsert (k : String) (v : Todo) (db : StoreMap)
    (h : storeWf db) (hk : k = toString v.id) : storeWf (mapInsert k v db) := by
  induction db with
  | nil =>
    intro p hp
    simp only [mapInsert, List.mem_singleton] at hp
    subst hp
    exact hk
  | cons q rest ih =>
    obtain ⟨k', v'⟩ := q
    have hq : (k', v') ∈ ((k', v') :: rest : StoreMap) := List.mem_cons_self _ _
    have hrest : storeWf rest := fun p hp => h p (List.mem_cons_of_mem _ hp)
    by_cases hkk : k' = k
    · intro p hp
      simp only [mapInsert, if_pos hkk] at hp
      rcases List.mem_cons.mp hp with hp | hp
      · subst hp; exact hk
      · exact h p (List.mem_cons_of_mem _ hp)
    · intro p hp
      simp only [mapInsert, if_neg hkk] at hp
      rcases List.mem_cons.mp hp with hp | hp
      · subst hp; exact h _ hq
      · exact ih hrest p hp

theorem mem_mapRemove (k : String) (p : String × Todo) (db : StoreMap)
    (h : p ∈ mapRemove k db) : p ∈ db := by
  induction db with
  | nil => simp [mapRemove] at h
  | cons q rest ih =>
    obtain ⟨k', v'⟩ := q
    by_cases hkk : k' = k
    · simp only [mapRemove, if_pos hkk] at h
      exact List.mem_cons_of_mem _ h
    · simp only [mapRemove, if_neg hkk] at h
      rcases List.mem_cons.mp h with hp | hp
      · subst hp; exact List.mem_cons_self _ _
      · exact List.mem_cons_of_mem _ (ih hp)

theorem storeWf_mapRemove (k : String) (db : StoreMap) (h : storeWf db) :
    storeWf (mapRemove k db) :=
  fun p hp => h p (mem_mapRemove k p db hp)

/-- C10: in every store reachable from the empty store by create,
update and delete, each key equals the decimal string of the id of the
record it maps to (create inserts under its own id's string, update
never touches the id, delete only removes). -/
theorem reachable_store_keys_match_ids (s : StoreMap) (h : Reachable s) : storeWf s := by
  induction h with
  | empty => intro p hp; simp at hp
  | create s title _ ih =>
    exact storeWf_mapInsert _ _ _ ih rfl
  | update s id t c _ ih =>
    unfold update_todo
    cases hget : mapGet (toString id) s with
    | none => simpa using ih
    | some todo =>
      have hkey : toString id = toString todo.id := ih _ (mapGet_mem _ _ _ hget)
      dsimp only
      apply storeWf_mapInsert _ _ _ ih
      cases t <;> cases c <;> simpa using hkey
  | delete s id _ ih =>
    unfold delete_todo
    by_cases hhas : mapHas (toString id) s
    · simp only [hhas, if_true]
      exact storeWf_mapRemove _ _ ih
    · simpa [hhas] using ih

theorem reachable_store_keys_match_ids_witness :
    storeWf ((create_todo "x" ([] : StoreMap)).2.2) :=
  reachable_store_keys_match_ids _ (Reachable.create [] "x" Reachable.empty)

/-! ### Claims about `process_request` -/

/-- C1 (the code violates it): a request whose declared
`Content-Length` exceeds the bytes present after the blank line makes
`process_request` panic (the byte slice on `src/lib.rs:150`), embedded
as `none`, instead of returning an error response. -/
theorem content_length_overrun_panics :
    process_request "GET /todos HTTP/1.1\nContent-Length: 5\n\n" [] = none := by
  rfl

/-- C7: a request line with other than 3 whitespace-separated tokens is
rejected with 400 before anything else; a 3-token line whose version is
none of HTTP/1.0, HTTP/1.1, HTTP/2.0 is rejected with 505, whatever
the method and path are. -/
theorem request_line_and_version_gate :
    (∀ (request : String) (db : StoreMap) (firstLine : List Char) (rest : List (List Char)),
      rustLines request.data = firstLine :: rest →
      (splitWs firstLine).length ≠ 3 →
      process_request request db = some ("400 Bad Request", "Invalid request line.", db))
    ∧ (∀ (request : String) (db : StoreMap) (firstLine : List Char) (rest : List (List Char))
        (m p v : List Char),
      rustLines request.data = firstLine :: rest →
      splitWs firstLine = [m, p, v] →
      v ≠ "HTTP/1.1".data → v ≠ "HTTP/1.0".data → v ≠ "HTTP/2.0".data →
      process_request request db =
        some ("505 HTTP Version Not Supported", "HTTP version is not supported.", db)) := by
  constructor
  · intro request db firstLine rest h1 h2
    rcases hsw : splitWs firstLine with _ | ⟨a, _ | ⟨b, _ | ⟨c, _ | ⟨d, t⟩⟩⟩⟩
    · simp [process_request, h1, hsw]
    · simp [process_request, h1, hsw]
    · simp [process_request, h1, hsw]
    · exact absurd (by rw [hsw]; rfl) h2
    · simp [process_request, h1, hsw]
  · intro request db firstLine rest m p v h1 h2 hv1 hv2 hv3
    simp [process_request, h1, h2, hv1, hv2, hv3]

theorem request_line_and_version_gate_witness :
    process_request "HI\n" [] = some ("400 Bad Request", "Invalid request line.", [])
    ∧ process_request "GET /todos HTTP/9.9\n\n" [] =
        some ("505 HTTP Version Not Supported", "HTTP version is not supported.", []) :=
  ⟨request_line_and_version_gate.1 "HI\n" [] "HI".data [] (by decide) (by decide),
   request_line_and_version_gate.2 "GET /todos HTTP/9.9\n\n" [] "GET /todos HTTP/9.9".data
     [[]] "GET".data "/todos".data "HTTP/9.9".data (by decide) (by decide)
     (by decide) (by decide) (by decide)⟩

/-! ### C2: the PUT `completed` validation -/

theorem option_bind_fun_none {α β : Type} (x : Option α) :
    (x.bind fun _ => (none : Option β)) = none := by
  cases x <;> rfl

theorem isPrefixOf_append_self (l₁ l₂ : List Char) : l₁.isPrefixOf (l₁ ++ l₂) = true := by
  induction l₁ with
  | nil => simp [List.isPrefixOf]
  | cons c t ih => simp [List.isPrefixOf, ih]

theorem drop_length_append (l₁ l₂ : List Char) : (l₁ ++ l₂).drop l₁.length = l₂ := by
  induction l₁ with
  | nil => rfl
  | cons c t ih => simp [ih]

theorem deserUpdateFields_of_completedNotBool (fields : List (List Char × Json))
    (hcb : completedNotBool fields = true) :
    deserUpdateFields fields = none ∨
      ∃ t, deserUpdateFields fields = some ⟨t, none⟩ := by
  unfold completedNotBool at hcb
  unfold deserUpdateFields
  by_cases hdup : (2 ≤ fields.countP (fun p => p.1 = "title".data) ∨
      2 ≤ fields.countP (fun p => p.1 = "completed".data))
  · left
    rw [if_pos hdup]
  · rw [if_neg hdup]
    rcases hjc : jlookup "completed".data fields with _ | jc
    · rcases hjt : jlookup "title".data fields with _ | jt
      · right; exact ⟨none, by simp [hjt, hjc]⟩
      · cases jt with
        | null => right; exact ⟨none, by simp [hjt, hjc]⟩
        | jstr s => right; exact ⟨some (String.mk s), by simp [hjt, hjc]⟩
        | jbool b => left; simp [hjt]
        | jnum raw => left; simp [hjt]
        | jarr xs => left; simp [hjt]
        | jobj fs => left; simp [hjt]
    · rw [hjc] at hcb
      cases jc with
      | jbool b => simp at hcb
      | null =>
        rcases hjt : jlookup "title".data fields with _ | jt
        · right; exact ⟨none, by simp [hjt, hjc]⟩
        · cases jt with
          | null => right; exact ⟨none, by simp [hjt, hjc]⟩
          | jstr s => right; exact ⟨some (String.mk s), by simp [hjt, hjc]⟩
          | jbool b => left; simp [hjt]
          | jnum raw => left; simp [hjt]
          | jarr xs => left; simp [hjt]
          | jobj fs => left; simp [hjt]
      | jstr s =>
        left
        rcases hjt : jlookup "title".data fields with _ | jt
        · simp [hjt, hjc]
        · cases jt <;> simp [hjt, hjc]
      | jnum raw =>
        left
        rcases hjt : jlookup "title".data fields with _ | jt
        · simp [hjt, hjc]
        · cases jt <;> simp [hjt, hjc]
      | jarr xs =>
        left
        rcases hjt : jlookup "title".data fields with _ | jt
        · simp [hjt, hjc]
        · cases jt <;> simp [hjt, hjc]
      | jobj fs =>
        left
        rcases hjt : jlookup "title".data fields with _ | jt
        · simp [hjt, hjc]
        · cases jt <;> simp [hjt, hjc]

theorem routeRequest_put_400 (idStr body : List Char) (id : Nat) (db : StoreMap)
    (fields : List (List Char × Json))
    (hid : parseUsize idStr = some id)
    (hjson : parseJson body = some (Json.jobj fields))
    (hcb : completedNotBool fields = true) :
    ∃ b, routeRequest "PUT".data ("/todos/".data ++ idStr) body db =
      ("400 Bad Request", b, db) := by
  have hpre : ("/todos/".data).isPrefixOf ("/todos/".data ++ idStr) = true :=
    isPrefixOf_append_self _ _
  have hdrop : ("/todos/".data ++ idStr).drop 7 = idStr :=
    drop_length_append "/todos/".data idStr
  unfold routeRequest
  rw [if_neg (by decide), if_neg (by decide), if_pos (by decide), if_pos hpre, hdrop, hid]
  simp only [hjson, Option.some_bind]
  rcases deserUpdateFields_of_completedNotBool fields hcb with hd | ⟨t, hd⟩
  · rw [show deserUpdate (Json.jobj fields) = none from hd]
    exact ⟨_, rfl⟩
  · rw [show deserUpdate (Json.jobj fields) = some ⟨t, none⟩ from hd]
    cases t with
    | none => exact ⟨_, rfl⟩
    | some t' =>
      rcases hv : validate_todo_title t' with e | u
      · exact ⟨e, by simp [hv]⟩
      · refine ⟨"The 'completed' field must be of type bool.", ?_⟩
        simp [hv, validate_todo_completed]

/-- Plumbing: when the request line, version, headers and body slice
are all accepted, `process_request` is the router applied to the
parsed pieces. -/
theorem process_request_routes (request : String) (db : StoreMap)
    (firstLine : List Char) (rest : List (List Char)) (method path version : List Char)
    (cl : Nat) (bodyLines : List (List Char)) (body : List Char)
    (h1 : rustLines request.data = firstLine :: rest)
    (h2 : splitWs firstLine = [method, path, version])
    (hv : version = "HTTP/1.1".data ∨ version = "HTTP/1.0".data ∨ version = "HTTP/2.0".data)
    (h3 : parseHeadersCL rest 0 = some (cl, bodyLines))
    (h4 : takeBytes cl (intercalateNl bodyLines) = some body) :
    process_request request db = some (routeRequest method path body db) := by
  have hvcond : ¬(version ≠ "HTTP/1.1".data ∧ version ≠ "HTTP/1.0".data ∧
      version ≠ "HTTP/2.0".data) := by
    rcases hv with h | h | h <;> simp [h]
  simp [process_request, h1, h2, hvcond, h3, h4]

/-- C2 (amended): a PUT to a valid numeric id whose body parses as a
JSON object in which `completed` is absent or bound to a non-boolean
is rejected with status 400 Bad Request and the store is untouched
(the bodies of the two rejection cases differ, see the
counterexample). -/
theorem put_completed_absent_or_nonbool_rejected
    (request : String) (db : StoreMap) (firstLine : List Char) (rest : List (List Char))
    (idStr version : List Char) (id cl : Nat) (bodyLines : List (List Char))
    (body : List Char) (fields : List (List Char × Json))
    (h1 : rustLines request.data = firstLine :: rest)
    (h2 : splitWs firstLine = ["PUT".data, "/todos/".data ++ idStr, version])
    (hv : version = "HTTP/1.1".data ∨ version = "HTTP/1.0".data ∨ version = "HTTP/2.0".data)
    (hid : parseUsize idStr = some id)
    (h3 : parseHeadersCL rest 0 = some (cl, bodyLines))
    (h4 : takeBytes cl (intercalateNl bodyLines) = some body)
    (hjson : parseJson body = some (Json.jobj fields))
    (hcb : completedNotBool fields = true) :
    (process_request request db).map (fun r => (r.1, r.2.2)) =
      some ("400 Bad Request", db) := by
  rw [process_request_routes request db firstLine rest _ _ _ cl bodyLines body h1 h2 hv h3 h4]
  obtain ⟨b, hb⟩ := routeRequest_put_400 idStr body id db fields hid hjson hcb
  rw [hb]
  rfl

theorem put_completed_absent_or_nonbool_rejected_witness :
    (process_request "PUT /todos/7 HTTP/1.1\nContent-Length: 2\n\n\x7b\x7d" []).map
        (fun r => (r.1, r.2.2)) = some ("400 Bad Request", ([] : StoreMap)) :=
  put_completed_absent_or_nonbool_rejected
    "PUT /todos/7 HTTP/1.1\nContent-Length: 2\n\n\x7b\x7d" []
    "PUT /todos/7 HTTP/1.1".data ["Content-Length: 2".data, [], "\x7b\x7d".data]
    "7".data "HTTP/1.1".data 7 2 ["\x7b\x7d".data] "\x7b\x7d".data []
    (by decide) (by decide) (Or.inl rfl) (by decide) (by decide) (by decide) rfl rfl

/-- C2 (counterexample to "rejected identically"): with the same store
and id, omitting `completed` yields the validator's message while a
non-boolean `completed` yields the deserialization message — the
statuses agree (400) but the response bodies differ. -/
theorem put_completed_cases_not_identical :
    process_request "PUT /todos/1 HTTP/1.1\nContent-Length: 2\n\n\x7b\x7d" [] =
      some ("400 Bad Request", "The 'completed' field must be of type bool.", [])
    ∧ process_request
        "PUT /todos/1 HTTP/1.1\nContent-Length: 19\n\n\x7b\"completed\":\"yes\"\x7d" [] =
      some ("400 Bad Request", "JSON deserialization error occurred.", [])
    ∧ ("The 'completed' field must be of type bool." : String) ≠
        "JSON deserialization error occurred." :=
  ⟨rfl, rfl, by decide⟩

/-! ### C9 proofs -/

theorem winv_step (op0 op1 : StoreOp) (s s' : WState)
    (hinv : WInv op0 op1 s) (hs : WStep op0 op1 s s') : WInv op0 op1 s' := by
  cases hs with
  | acquire0 h hpc =>
    unfold WInv at hinv ⊢
    dsimp only
    rcases hinv with ⟨h1, h2, h3, h4, h5, h6⟩ | ⟨h1, h2, h3, h4, h5, h6⟩ |
      ⟨h1, h2, h3, h4, h5, h6⟩ | ⟨h1, h2, h3, h4⟩ | ⟨h1, -⟩ | ⟨h1, -⟩
    · exact Or.inr (Or.inr (Or.inr (Or.inr (Or.inl
        ⟨rfl, [], Or.inl ⟨h3, h6, rfl⟩, Or.inl ⟨rfl, h4, h5⟩⟩))))
    · rw [hpc] at h2; exact absurd h2 (by decide)
    · exact Or.inr (Or.inr (Or.inr (Or.inr (Or.inl
        ⟨rfl, (applyOp op1 []).2.2, Or.inr ⟨h3, h6, rfl⟩, Or.inl ⟨rfl, h4, h5⟩⟩))))
    · rw [hpc] at h2; exact absurd h2 (by decide)
    · rw [h] at h1; exact absurd h1 (by decide)
    · rw [h] at h1; exact absurd h1 (by decide)
  | read0 h hpc =>
    unfold WInv at hinv ⊢
    dsimp only
    rcases hinv with ⟨h1, -⟩ | ⟨h1, -⟩ | ⟨h1, -⟩ | ⟨h1, -⟩ |
      ⟨h1, base, hA, hB⟩ | ⟨h1, -⟩
    · rw [h] at h1; exact absurd h1 (by decide)
    · rw [h] at h1; exact absurd h1 (by decide)
    · rw [h] at h1; exact absurd h1 (by decide)
    · rw [h] at h1; exact absurd h1 (by decide)
    · rcases hB with ⟨hb1, hb2, hb3⟩ | ⟨hb1, hb2, hb3, hb4⟩ | ⟨hb1, hb2, hb3⟩
      · exact Or.inr (Or.inr (Or.inr (Or.inr (Or.inl
          ⟨h, base, hA, Or.inr (Or.inl ⟨rfl, hb2, hb2, hb3⟩)⟩))))
      · rw [hpc] at hb1; exact absurd hb1 (by decide)
      · rw [hpc] at hb1; exact absurd hb1 (by decide)
    · rw [h] at h1; exact absurd h1 (by decide)
  | write0 h hpc =>
    unfold WInv at hinv ⊢
    dsimp only
    rcases hinv with ⟨h1, -⟩ | ⟨h1, -⟩ | ⟨h1, -⟩ | ⟨h1, -⟩ |
      ⟨h1, base, hA, hB⟩ | ⟨h1, -⟩
    · rw [h] at h1; exact absurd h1 (by decide)
    · rw [h] at h1; exact absurd h1 (by decide)
    · rw [h] at h1; exact absurd h1 (by decide)
    · rw [h] at h1; exact absurd h1 (by decide)
    · rcases hB with ⟨hb1, hb2, hb3⟩ | ⟨hb1, hb2, hb3, hb4⟩ | ⟨hb1, hb2, hb3⟩
      · rw [hpc] at hb1; exact absurd hb1 (by decide)
      · exact Or.inr (Or.inr (Or.inr (Or.inr (Or.inl
          ⟨h, base, hA, Or.inr (Or.inr ⟨rfl, by rw [hb3], by rw [hb3]⟩)⟩))))
      · rw [hpc] at hb1; exact absurd hb1 (by decide)
    · rw [h] at h1; exact absurd h1 (by decide)
  | release0 h hpc =>
    unfold WInv at hinv ⊢
    dsimp only
    rcases hinv with ⟨h1, -⟩ | ⟨h1, -⟩ | ⟨h1, -⟩ | ⟨h1, -⟩ |
      ⟨h1, base, hA, hB⟩ | ⟨h1, -⟩
    · rw [h] at h1; exact absurd h1 (by decide)
    · rw [h] at h1; exact absurd h1 (by decide)
    · rw [h] at h1; exact absurd h1 (by decide)
    · rw [h] at h1; exact absurd h1 (by decide)
    · rcases hB with ⟨hb1, hb2, hb3⟩ | ⟨hb1, hb2, hb3, hb4⟩ | ⟨hb1, hb2, hb3⟩
      · rw [hpc] at hb1; exact absurd hb1 (by decide)
      · rw [hpc] at hb1; exact absurd hb1 (by decide)
      · rcases hA with ⟨ha1, ha2, hbase⟩ | ⟨ha1, ha2, hbase⟩
        · subst hbase
          exact Or.inr (Or.inl ⟨rfl, rfl, ha1, hb2, hb3, ha2⟩)
        · subst hbase
          refine Or.inr (Or.inr (Or.inr (Or.inl ⟨rfl, rfl, ha1, Or.inr ?_⟩)))
          show (s.th0.res, s.th1.res, s.store) = run10 op0 op1
          rw [hb3, ha2, hb2]
          rfl
    · rw [h] at h1; exact absurd h1 (by decide)
  | acquire1 h hpc =>
    unfold WInv at hinv ⊢
    dsimp only
    rcases hinv with ⟨h1, h2, h3, h4, h5, h6⟩ | ⟨h1, h2, h3, h4, h5, h6⟩ |
      ⟨h1, h2, h3, h4, h5, h6⟩ | ⟨h1, h2, h3, h4⟩ | ⟨h1, -⟩ | ⟨h1, -⟩
    · exact Or.inr (Or.inr (Or.inr (Or.inr (Or.inr
        ⟨rfl, [], Or.inl ⟨h2, h5, rfl⟩, Or.inl ⟨rfl, h4, h6⟩⟩))))
    · exact Or.inr (Or.inr (Or.inr (Or.inr (Or.inr
        ⟨rfl, (applyOp op0 []).2.2, Or.inr ⟨h2, h5, rfl⟩, Or.inl ⟨rfl, h4, h6⟩⟩))))
    · rw [hpc] at h3; exact absurd h3 (by decide)
    · rw [hpc] at h3; exact absurd h3 (by decide)
    · rw [h] at h1; exact absurd h1 (by decide)
    · rw [h] at h1; exact absurd h1 (by decide)
  | read1 h hpc =>
    unfold WInv at hinv ⊢
    dsimp only
    rcases hinv with ⟨h1, -⟩ | ⟨h1, -⟩ | ⟨h1, -⟩ | ⟨h1, -⟩ | ⟨h1, -⟩ |
      ⟨h1, base, hA, hB⟩
    · rw [h] at h1; exact absurd h1 (by decide)
    · rw [h] at h1; exact absurd h1 (by decide)
    · rw [h] at h1; exact absurd h1 (by decide)
    · rw [h] at h1; exact absurd h1 (by decide)
    · rw [h] at h1; exact absurd h1 (by decide)
    · rcases hB with ⟨hb1, hb2, hb3⟩ | ⟨hb1, hb2, hb3, hb4⟩ | ⟨hb1, hb2, hb3⟩
      · exact Or.inr (Or.inr (Or.inr (Or.inr (Or.inr
          ⟨h, base, hA, Or.inr (Or.inl ⟨rfl, hb2, hb2, hb3⟩)⟩))))
      · rw [hpc] at hb1; exact absurd hb1 (by decide)
      · rw [hpc] at hb1; exact absurd hb1 (by decide)
  | write1 h hpc =>
    unfold WInv at hinv ⊢
    dsimp only
    rcases hinv with ⟨h1, -⟩ | ⟨h1, -⟩ | ⟨h1, -⟩ | ⟨h1, -⟩ | ⟨h1, -⟩ |
      ⟨h1, base, hA, hB⟩
    · rw [h] at h1; exact absurd h1 (by decide)
    · rw [h] at h1; exact absurd h1 (by decide)
    · rw [h] at h1; exact absurd h1 (by decide)
    · rw [h] at h1; exact absurd h1 (by decide)
    · rw [h] at h1; exact absurd h1 (by decide)
    · rcases hB with ⟨hb1, hb2, hb3⟩ | ⟨hb1, hb2, hb3, hb4⟩ | ⟨hb1, hb2, hb3⟩
      · rw [hpc] at hb1; exact absurd hb1 (by decide)
      · exact Or.inr (Or.inr (Or.inr (Or.inr (Or.inr
          ⟨h, base, hA, Or.inr (Or.inr ⟨rfl, by rw [hb3], by rw [hb3]⟩)⟩))))
      · rw [hpc] at hb1; exact absurd hb1 (by decide)
  | release1 h hpc =>
    unfold WInv at hinv ⊢
    dsimp only
    rcases hinv with ⟨h1, -⟩ | ⟨h1, -⟩ | ⟨h1, -⟩ | ⟨h1, -⟩ | ⟨h1, -⟩ |
      ⟨h1, base, hA, hB⟩
    · rw [h] at h1; exact absurd h1 (by decide)
    · rw [h] at h1; exact absurd h1 (by decide)
    · rw [h] at h1; exact absurd h1 (by decide)
    · rw [h] at h1; exact absurd h1 (by decide)
    · rw [h] at h1; exact absurd h1 (by decide)
    · rcases hB with ⟨hb1, hb2, hb3⟩ | ⟨hb1, hb2, hb3, hb4⟩ | ⟨hb1, hb2, hb3⟩
      · rw [hpc] at hb1; exact absurd hb1 (by decide)
      · rw [hpc] at hb1; exact absurd hb1 (by decide)
      · rcases hA with ⟨ha1, ha2, hbase⟩ | ⟨ha1, ha2, hbase⟩
        · subst hbase
          exact Or.inr (Or.inr (Or.inl ⟨rfl, ha1, rfl, hb2, ha2, hb3⟩))
        · subst hbase
          refine Or.inr (Or.inr (Or.inr (Or.inl ⟨rfl, ha1, rfl, Or.inl ?_⟩)))
          show (s.th0.res, s.th1.res, s.store) = run01 op0 op1
          rw [hb3, ha2, hb2]
          rfl

theorem wreach_winv (op0 op1 : StoreOp) (s : WState)
    (h : WReach op0 op1 s) : WInv op0 op1 s := by
  induction h with
  | init => exact Or.inl ⟨rfl, rfl, rfl, rfl, rfl, rfl⟩
  | step s s' _ hstep ih => exact winv_step op0 op1 s s' ih hstep

/-- C9: the mutex total-orders the five store operations.  In the
two-worker interleaving model: (a) no two workers are inside their
critical sections at once, so no two store accesses interleave; (b)
when both workers finish, results and final store equal a sequential
execution of the two operations in one of the two orders
(linearizability); (c) in particular two concurrent creates against
the empty store never both receive id 1. -/
theorem store_ops_linearizable :
    (∀ (op0 op1 : StoreOp) (s : WState), WReach op0 op1 s →
      ¬(1 ≤ s.th0.pc ∧ s.th0.pc ≤ 3 ∧ 1 ≤ s.th1.pc ∧ s.th1.pc ≤ 3))
    ∧ (∀ (op0 op1 : StoreOp) (s : WState), WReach op0 op1 s →
        s.th0.pc = 4 → s.th1.pc = 4 →
        (s.th0.res, s.th1.res, s.store) = run01 op0 op1 ∨
        (s.th0.res, s.th1.res, s.store) = run10 op0 op1)
    ∧ (∀ (s : WState), WReach (StoreOp.create "a") (StoreOp.create "b") s →
        s.th0.pc = 4 → s.th1.pc = 4 →
        ¬(s.th0.res = some ("201 Created", serializeTodo ⟨1, "a", false⟩) ∧
          s.th1.res = some ("201 Created", serializeTodo ⟨1, "b", false⟩))) := by
  refine ⟨?_, ?_, ?_⟩
  · intro op0 op1 s hreach hcrit
    obtain ⟨hc1, hc2, hc3, hc4⟩ := hcrit
    have hinv := wreach_winv op0 op1 s hreach
    unfold WInv at hinv
    rcases hinv with ⟨-, h2, h3, -⟩ | ⟨-, h2, h3, -⟩ | ⟨-, h2, h3, -⟩ | ⟨-, h2, h3, -⟩ |
      ⟨-, base, hA, hB⟩ | ⟨-, base, hA, hB⟩
    · omega
    · omega
    · omega
    · omega
    · rcases hA with ⟨ha, -⟩ | ⟨ha, -⟩ <;> omega
    · rcases hA with ⟨ha, -⟩ | ⟨ha, -⟩ <;> omega
  · intro op0 op1 s hreach h40 h41
    have hinv := wreach_winv op0 op1 s hreach
    unfold WInv at hinv
    rcases hinv with ⟨-, h2, h3, -⟩ | ⟨-, h2, h3, -⟩ | ⟨-, h2, h3, -⟩ | ⟨-, -, -, hout⟩ |
      ⟨-, base, hA, hB⟩ | ⟨-, base, hA, hB⟩
    · omega
    · omega
    · omega
    · exact hout
    · rcases hB with ⟨hb, -⟩ | ⟨hb, -⟩ | ⟨hb, -⟩ <;> omega
    · rcases hB with ⟨hb, -⟩ | ⟨hb, -⟩ | ⟨hb, -⟩ <;> omega
  · intro s hreach h40 h41
    have hinv := wreach_winv (StoreOp.create "a") (StoreOp.create "b") s hreach
    unfold WInv at hinv
    rintro ⟨hr0, hr1⟩
    rcases hinv with ⟨-, h2, h3, -⟩ | ⟨-, h2, h3, -⟩ | ⟨-, h2, h3, -⟩ |
      ⟨-, -, -, hout | hout⟩ | ⟨-, base, hA, hB⟩ | ⟨-, base, hA, hB⟩
    · omega
    · omega
    · omega
    · simp only [run01, Prod.mk.injEq] at hout
      obtain ⟨-, hout1, -⟩ := hout
      rw [hr1] at hout1
      exact absurd hout1 (by decide)
    · simp only [run10, Prod.mk.injEq] at hout
      obtain ⟨hout0, -⟩ := hout
      rw [hr0] at hout0
      exact absurd hout0 (by decide)
    · rcases hB with ⟨hb, -⟩ | ⟨hb, -⟩ | ⟨hb, -⟩ <;> omega
    · rcases hB with ⟨hb, -⟩ | ⟨hb, -⟩ | ⟨hb, -⟩ <;> omega

theorem store_ops_linearizable_witness :
    (wfinal.th0.res, wfinal.th1.res, wfinal.store) =
      run01 (StoreOp.create "a") (StoreOp.create "b") ∨
    (wfinal.th0.res, wfinal.th1.res, wfinal.store) =
      run10 (StoreOp.create "a") (StoreOp.create "b") := by
  have h0 : WReach (StoreOp.create "a") (StoreOp.create "b") winit := WReach.init
  have h1 := WReach.step _ _ h0 (WStep.acquire0 _ rfl rfl)
  have h2 := WReach.step _ _ h1 (WStep.read0 _ rfl rfl)
  have h3 := WReach.step _ _ h2 (WStep.write0 _ rfl rfl)
  have h4 := WReach.step _ _ h3 (WStep.release0 _ rfl rfl)
  have h5 := WReach.step _ _ h4 (WStep.acquire1 _ rfl rfl)
  have h6 := WReach.step _ _ h5 (WStep.read1 _ rfl rfl)
  have h7 := WReach.step _ _ h6 (WStep.write1 _ rfl rfl)
  have h8 := WReach.step _ _ h7 (WStep.release1 _ rfl rfl)
  exact store_ops_linearizable.2.1 _ _ _ h8 rfl rfl
